import Mathlib

/-!
Shallow embedding of the dinghy repository's core logic, together with
theorems settling the spec claims about it.

Each definition carries a comment pointing at the Rust source it embeds
(file and lines). String-manipulating code is embedded over `String` /
`List Char`; subprocess pipelines are embedded as pure functions from an
exit-status oracle to the ordered list of launched commands plus the
operation's outcome.
-/

namespace Dinghy

/-! ## Android ABI list mapping

Source: `dinghy-lib/src/device/android.rs`, `AndroidDevice::from_id`
(lines 32-44): `abilist.trim().split(",").filter_map(|abi| ...)`.
-/

/-- The static ABI-to-triple lookup of the `match` inside `from_id`
(android.rs lines 36-42): four known tokens, every other token maps
to `None` (dropped by `filter_map`). -/
def abiToTriple (abi : String) : Option String :=
  match abi with
  | "arm64-v8a" => some "aarch64-linux-android"
  | "armeabi-v7a" => some "armv7-linux-androideabi"
  | "armeabi" => some "arm-linux-androideabi"
  | "x86" => some "i686-linux-android"
  | _ => none

/-- `abilist.split(",").filter_map(...)` of `from_id`: the supported
target triples computed from a list of ABI tokens. -/
def mapAbiList (tokens : List String) : List String :=
  tokens.filterMap abiToTriple

/-- Rust `str::split` with a one-character separator, on a character
list: splits at every separator, keeping empty fields
(`"".split(",")` is `[""]`). -/
def splitChar (sep : Char) : List Char → List (List Char)
  | [] => [[]]
  | c :: rest =>
    if c = sep then [] :: splitChar sep rest
    else
      match splitChar sep rest with
      | [] => [[c]]
      | t :: ts => (c :: t) :: ts

/-- Rust `str::trim` on a character list (whitespace approximated by
`Char.isWhitespace`; the ABI strings involved are ASCII). -/
def trimChars (l : List Char) : List Char :=
  ((l.dropWhile Char.isWhitespace).reverse.dropWhile Char.isWhitespace).reverse

/-- The whole string-level computation of `from_id`:
`abilist.trim().split(",")` then the filter-map. -/
def supportedTargetsOfAbilist (abilist : String) : List String :=
  mapAbiList ((splitChar ',' (trimChars abilist.data)).map fun cs => String.mk cs)

/-- Spec-side association table of the four known ABI tokens, used to
state the claim independently of the `match`-based code. -/
def abiTable : List (String × String) :=
  [("arm64-v8a", "aarch64-linux-android"),
   ("armeabi-v7a", "armv7-linux-androideabi"),
   ("armeabi", "arm-linux-androideabi"),
   ("x86", "i686-linux-android")]

/-- A token is known exactly when the spec table lists it. -/
def knownAbi (t : String) : Bool :=
  (abiTable.lookup t).isSome

/-- The triple the spec table assigns to a known token. -/
def tableTriple (t : String) : String :=
  (abiTable.lookup t).getD ""

theorem abiToTriple_eq_lookup (t : String) :
    abiToTriple t = abiTable.lookup t := by
  unfold abiToTriple
  split <;> simp_all [abiTable, List.lookup_cons, beq_false_of_ne]

/-- C1: for every input list of ABI tokens, the Android ABI-to-triple
mapping of `AndroidDevice::from_id` returns exactly the triples of the
known tokens, in the same order as the input tokens; unknown tokens are
dropped (the function is total, so no token causes an error), and the
four known tokens map to their documented triples. -/
theorem claim1_abi_mapping (tokens : List String) :
    mapAbiList tokens = (tokens.filter knownAbi).map tableTriple
    ∧ mapAbiList ["arm64-v8a", "armeabi-v7a", "armeabi", "x86"]
        = ["aarch64-linux-android", "armv7-linux-androideabi",
           "arm-linux-androideabi", "i686-linux-android"]
    ∧ supportedTargetsOfAbilist " arm64-v8a,mips64,x86 "
        = ["aarch64-linux-android", "i686-linux-android"] := by
  refine ⟨?_, by decide, by decide⟩
  induction tokens with
  | nil => rfl
  | cons t rest ih =>
    simp only [mapAbiList, List.filterMap_cons, List.filter_cons] at *
    rw [abiToTriple_eq_lookup]
    cases h : abiTable.lookup t with
    | none => simp [knownAbi, h, ih]
    | some v => simp [knownAbi, h, tableTriple, ih]

/-! ## Device / Platform compatibility

Source: `dinghy-lib/src/lib.rs` lines 179-192 (the `DeviceCompatibility`
trait, every predicate defaulting to `false`),
`dinghy-lib/src/device/android.rs` lines 56-60 and
`dinghy-lib/src/device/ssh.rs` lines 26-30 (the overrides), and
`dinghy-lib/src/platform/regular_platform.rs` lines 162-164
(`Platform::is_compatible_with` double dispatch).
-/

/-- The part of `ToolchainConfig` compatibility depends on
(`dinghy-lib/src/device/android.rs` line 58 reads `toolchain.tc_triple`). -/
structure ToolchainConfig where
  tc_triple : String

/-- `RegularPlatform` fields used by compatibility: `id` and `toolchain`. -/
structure RegularPlatform where
  id : String
  toolchain : ToolchainConfig

/-- `HostPlatform` marker (its own fields play no role in the dispatch
rules present under `src/`). -/
structure HostPlatform where
  dummy : Unit

/-- `AndroidDevice` fields used by compatibility. -/
structure AndroidDevice where
  id : String
  supported_targets : List String

/-- `SshDeviceConfiguration` fields used across the claims:
hostname/username/port/path (install, clean, run) and the
`platform` field compatibility reads. -/
structure SshDeviceConfiguration where
  hostname : String
  username : String
  port : Option Nat
  path : Option String
  platform : Option String

/-- `SshDevice`: an id plus its configuration. -/
structure SshDevice where
  id : String
  conf : SshDeviceConfiguration

/-- The closed set of device variants present under `src/`. -/
inductive Device
  | android (d : AndroidDevice)
  | ssh (d : SshDevice)

/-- `DeviceCompatibility::is_compatible_with_regular_platform`:
Android checks `supported_targets.contains(&platform.toolchain.tc_triple)`
(android.rs line 58); SSH checks
`conf.platform.map_or(false, |it| *it == platform.id)` (ssh.rs line 28). -/
def Device.is_compatible_with_regular_platform : Device → RegularPlatform → Bool
  | .android d, p => d.supported_targets.contains p.toolchain.tc_triple
  | .ssh d, p => (d.conf.platform.map fun it => it == p.id).getD false

/-- `DeviceCompatibility::is_compatible_with_host_platform`: neither
Android nor SSH overrides it, so the trait default `false`
(lib.rs lines 184-186) applies to every device. -/
def Device.is_compatible_with_host_platform : Device → HostPlatform → Bool
  | _, _ => false

/-- The platform variants relevant to the dispatch under `src/`. -/
inductive Platform
  | regular (p : RegularPlatform)
  | host (p : HostPlatform)

/-- `Platform::is_compatible_with`: each platform kind invokes the
device predicate matching its own kind (regular_platform.rs
lines 162-164; the host side has no overriding device, so it resolves
to the trait default). -/
def Platform.is_compatible_with : Platform → Device → Bool
  | .regular p, d => d.is_compatible_with_regular_platform p
  | .host p, d => d.is_compatible_with_host_platform p

/-- C2: an Android device whose capability set is `{T1, T2}` is
compatible with a regular platform of triple `T1` (or `T2`) and
incompatible with one whose triple `T3` is outside the set; and any
device paired with a platform kind for which it declares no predicate
(here: the host kind) is incompatible by default. -/
theorem claim2_compatibility (i pid T1 T2 T3 : String)
    (h1 : T3 ≠ T1) (h2 : T3 ≠ T2) (hp : HostPlatform) (dev : Device) :
    Platform.is_compatible_with (.regular ⟨pid, ⟨T1⟩⟩) (.android ⟨i, [T1, T2]⟩) = true
    ∧ Platform.is_compatible_with (.regular ⟨pid, ⟨T2⟩⟩) (.android ⟨i, [T1, T2]⟩) = true
    ∧ Platform.is_compatible_with (.regular ⟨pid, ⟨T3⟩⟩) (.android ⟨i, [T1, T2]⟩) = false
    ∧ Platform.is_compatible_with (.host hp) dev = false := by
  refine ⟨?_, ?_, ?_, ?_⟩
  · simp [Platform.is_compatible_with, Device.is_compatible_with_regular_platform,
      List.contains_cons]
  · simp [Platform.is_compatible_with, Device.is_compatible_with_regular_platform,
      List.contains_cons]
  · simp [Platform.is_compatible_with, Device.is_compatible_with_regular_platform,
      List.contains_cons, h1, h2]
  · cases dev <;> rfl

/-- C2 witness: the theorem applied at concrete triples. -/
theorem claim2_compatibility_witness :
    Platform.is_compatible_with
      (.regular ⟨"p", ⟨"aarch64-linux-android"⟩⟩)
      (.android ⟨"dev1", ["aarch64-linux-android", "armv7-linux-androideabi"]⟩) = true
    ∧ Platform.is_compatible_with
      (.regular ⟨"p", ⟨"armv7-linux-androideabi"⟩⟩)
      (.android ⟨"dev1", ["aarch64-linux-android", "armv7-linux-androideabi"]⟩) = true
    ∧ Platform.is_compatible_with
      (.regular ⟨"p", ⟨"i686-linux-android"⟩⟩)
      (.android ⟨"dev1", ["aarch64-linux-android", "armv7-linux-androideabi"]⟩) = false
    ∧ Platform.is_compatible_with (.host ⟨()⟩)
      (.android ⟨"dev1", ["aarch64-linux-android", "armv7-linux-androideabi"]⟩) = false :=
  claim2_compatibility "dev1" "p"
    "aarch64-linux-android" "armv7-linux-androideabi" "i686-linux-android"
    (by decide) (by decide) ⟨()⟩
    (.android ⟨"dev1", ["aarch64-linux-android", "armv7-linux-androideabi"]⟩)

/-! ## Overlay deduplication

Source: `dinghy-lib/src/overlay.rs`, `Overlayer::overlay` (lines 54-82):
configured overlays (`from_conf`) chained before the overlays discovered
along the candidate paths, then `unique_by(|overlay| overlay.id)`, which
keeps the first occurrence of each id.
-/

/-- `Overlay`: id plus filesystem path (overlay.rs lines 28-33; the
scope field is constant `Application` in both constructors and plays no
role in deduplication). -/
structure Overlay where
  id : String
  path : String
deriving DecidableEq

/-- Itertools `unique_by` keyed on `overlay.id`: walk the sequence,
keep an element only when its id has not been seen before. -/
def uniqueById : List Overlay → List String → List Overlay
  | [], _ => []
  | o :: rest, seen =>
    if seen.contains o.id then uniqueById rest seen
    else o :: uniqueById rest (o.id :: seen)

/-- `Overlayer::overlay`: configured overlays first, then the overlays
discovered from each candidate directory (nearest ancestor outward,
home last), flattened in that order, then deduplicated by id. -/
def Overlayer.overlay (conf : List Overlay) (discovered : List (List Overlay)) : List Overlay :=
  uniqueById (conf ++ discovered.flatten) []

/-- C3: deduplication keeps exactly the first occurrence of each id:
overlays `A@path1, A@path2, B@path3` in discovery order resolve to
exactly `A` bound to `path1` plus `B` bound to `path3` — both when all
three are discovered from directories and when the first is configured
explicitly. -/
theorem claim3_overlay_dedup (A B p1 p2 p3 : String) (hAB : A ≠ B) :
    Overlayer.overlay [] [[⟨A, p1⟩], [⟨A, p2⟩], [⟨B, p3⟩]] = [⟨A, p1⟩, ⟨B, p3⟩]
    ∧ Overlayer.overlay [⟨A, p1⟩] [[⟨A, p2⟩], [⟨B, p3⟩]] = [⟨A, p1⟩, ⟨B, p3⟩] := by
  constructor <;>
    simp [Overlayer.overlay, uniqueById, List.contains_cons, Ne.symm hAB]

/-- C3 witness: the theorem applied at concrete ids and paths. -/
theorem claim3_overlay_dedup_witness :
    Overlayer.overlay [] [[⟨"A", "path1"⟩], [⟨"A", "path2"⟩], [⟨"B", "path3"⟩]]
        = [⟨"A", "path1"⟩, ⟨"B", "path3"⟩]
    ∧ Overlayer.overlay [⟨"A", "path1"⟩] [[⟨"A", "path2"⟩], [⟨"B", "path3"⟩]]
        = [⟨"A", "path1"⟩, ⟨"B", "path3"⟩] :=
  claim3_overlay_dedup "A" "B" "path1" "path2" "path3" (by decide)

/-! ## Synthesized library names

Source: `dinghy-lib/src/overlay.rs`, `Overlayer::lib_name`
(lines 187-199): `start_index` is 3 when the file name starts with
`lib`, else 0; `end_index` is the index of the first `".so"` occurrence
(or the length when absent); error exactly when the two indices
coincide, otherwise the slice between them.

File names are modelled as `List Char` (the names involved are ASCII,
so Rust byte indices coincide with character indices).
-/

/-- Rust `file_name.find(".so")`: index of the first occurrence of the
substring `".so"`, if any. -/
def findSo : List Char → Option Nat
  | [] => none
  | c :: rest =>
    if c = '.' ∧ rest.take 2 = ['s', 'o'] then some 0
    else (findSo rest).map (· + 1)

/-- `Overlayer::lib_name` (slice `[start_index..end_index]` rendered as
`take`-then-`drop`; the source analysis below shows
`start_index ≤ end_index` always holds, so the Rust slicing never
panics). -/
def lib_name (file_name : List Char) : Option (List Char) :=
  let start_index := if file_name.take 3 = ['l', 'i', 'b'] then 3 else 0
  let end_index := (findSo file_name).getD file_name.length
  if start_index = end_index then none
  else some ((file_name.take end_index).drop start_index)

/-- Claim-side name derivation, following the spec's words: strip a
leading `lib` prefix when present, then cut everything from the first
`".so"` onward. -/
def strippedName (file_name : List Char) : List Char :=
  let base := if file_name.take 3 = ['l', 'i', 'b'] then file_name.drop 3 else file_name
  base.take ((findSo base).getD base.length)

theorem findSo_cons_ne (c : Char) (rest : List Char)
    (h : ¬(c = '.' ∧ rest.take 2 = ['s', 'o'])) :
    findSo (c :: rest) = (findSo rest).map (· + 1) := by
  simp [findSo, h]

theorem findSo_lib (t : List Char) :
    findSo ('l' :: 'i' :: 'b' :: t) = (findSo t).map (· + 3) := by
  rw [findSo_cons_ne 'l' _ (by simp), findSo_cons_ne 'i' _ (by simp),
    findSo_cons_ne 'b' _ (by simp)]
  cases findSo t <;> simp

theorem take_findSo_eq_nil (l : List Char) :
    l.take ((findSo l).getD l.length) = [] ↔ (findSo l).getD l.length = 0 := by
  rw [List.take_eq_nil_iff]
  constructor
  · rintro (h | h)
    · exact h
    · subst h; rfl
  · exact Or.inl

/-- C4: `lib_name` computes exactly the spec's stripped name and fails
exactly when that name is empty; on the spec's examples `libfoo.so`
and `libfoo.so.1.2` it yields `foo`, while `lib.so` is an error. -/
theorem claim4_lib_name (f : List Char) :
    lib_name f = (if strippedName f = [] then none else some (strippedName f))
    ∧ lib_name "libfoo.so".data = some "foo".data
    ∧ lib_name "libfoo.so.1.2".data = some "foo".data
    ∧ lib_name "lib.so".data = none := by
  refine ⟨?_, by decide, by decide, by decide⟩
  by_cases hlib : f.take 3 = ['l', 'i', 'b']
  · rcases f with _ | ⟨a, f⟩
    · simp [List.take] at hlib
    rcases f with _ | ⟨b, f⟩
    · simp [List.take] at hlib
    rcases f with _ | ⟨c, t⟩
    · simp [List.take] at hlib
    obtain ⟨ha, hb, hc⟩ : a = 'l' ∧ b = 'i' ∧ c = 'b' := by
      simpa [List.take] using hlib
    subst ha; subst hb; subst hc
    have hE : (findSo ('l' :: 'i' :: 'b' :: t)).getD ('l' :: 'i' :: 'b' :: t).length
        = (findSo t).getD t.length + 3 := by
      rw [findSo_lib]
      cases h : findSo t <;> simp [List.length_cons]
    simp only [lib_name, strippedName, hlib, if_true, hE, List.drop_succ_cons,
      List.take_succ_cons, List.drop_zero]
    by_cases h0 : (findSo t).getD t.length = 0
    · simp [h0, List.drop]
    · have ht : ¬(t.take ((findSo t).getD t.length) = []) :=
        fun hcon => h0 ((take_findSo_eq_nil t).mp hcon)
      have h3 : ¬(3 = (findSo t).getD t.length + 3) := by omega
      simp [h3, ht, List.drop]
  · simp only [lib_name, strippedName, hlib, if_false, List.drop_zero]
    by_cases h0 : (findSo f).getD f.length = 0
    · simp [h0]
    · have ht : ¬(f.take ((findSo f).getD f.length) = []) :=
        fun hcon => h0 ((take_findSo_eq_nil f).mp hcon)
      have hz : ¬(0 = (findSo f).getD f.length) := fun h => h0 h.symm
      simp [hz, ht]

/-! ## Transport failure semantics

Source: `dinghy-lib/src/device/android.rs` `install_app` (lines
106-139), `clean_app` (140-156), `run_app` (160-184), and
`dinghy-lib/src/device/ssh.rs` `install_app` (76-129), `clean_app`
(130-152), `run_app` (156-186).

Each operation is embedded as a pure function from an exit-status
oracle (which subprocess succeeds) to the ordered list of subprocesses
it launches plus a success flag (`true` = `Ok(())`, `false` = `Err`).
Crucially, android `install_app` binds the first `adb shell rm` status
to `let _stat` (line 118) and ssh `install_app` binds the `ssh mkdir`
status to `let _stat` (line 79), so those two statuses are never
checked; every other launched subprocess is checked with
`if !stat.success() { Err(...)? }`.
-/

/-- The adb subprocesses of the Android device operations. -/
inductive AdbStep
  | rm
  | push
  | chmod
  | shell
deriving DecidableEq

/-- `AndroidDevice::install_app`: launch `adb shell rm -rf` (status
ignored), then `adb push` (checked), then `adb shell chmod 755`
(checked). -/
def androidInstallApp (status : AdbStep → Bool) : List AdbStep × Bool :=
  if status .push = false then ([.rm, .push], false)
  else if status .chmod = false then ([.rm, .push, .chmod], false)
  else ([.rm, .push, .chmod], true)

/-- `AndroidDevice::clean_app`: a single checked `adb shell rm -rf`. -/
def androidCleanApp (status : AdbStep → Bool) : List AdbStep × Bool :=
  ([.rm], status .rm)

/-- `AndroidDevice::run_app`: a single checked `adb shell` execution. -/
def androidRunApp (status : AdbStep → Bool) : List AdbStep × Bool :=
  ([.shell], status .shell)

/-- The subprocesses of the SSH device operations. -/
inductive SshStep
  | mkdir
  | rsync
  | rm
  | run
deriving DecidableEq

/-- `SshDevice::install_app`: launch `ssh ... mkdir -p` (status
ignored), then one `rsync` (checked). -/
def sshInstallApp (status : SshStep → Bool) : List SshStep × Bool :=
  if status .rsync = false then ([.mkdir, .rsync], false)
  else ([.mkdir, .rsync], true)

/-- `SshDevice::clean_app`: a single checked `ssh ... rm -rf`. -/
def sshCleanApp (status : SshStep → Bool) : List SshStep × Bool :=
  ([.rm], status .rm)

/-- `SshDevice::run_app`: a single checked remote `ssh` execution. -/
def sshRunApp (status : SshStep → Bool) : List SshStep × Bool :=
  ([.run], status .run)

/-- C5 counterexample: in `AndroidDevice::install_app` the initial
`adb shell rm -rf` subprocess exits non-zero, yet the operation keeps
going (the push executes afterwards) and returns success — so it is
not the case that every launched transport subprocess with a non-zero
exit aborts the invocation with an error. -/
theorem claim5_counterexample :
    (fun s => s ≠ AdbStep.rm : AdbStep → Bool) AdbStep.rm = false
    ∧ AdbStep.rm ∈ (androidInstallApp (fun s => s ≠ AdbStep.rm)).1
    ∧ AdbStep.push ∈ (androidInstallApp (fun s => s ≠ AdbStep.rm)).1
    ∧ (androidInstallApp (fun s => s ≠ AdbStep.rm)).2 = true := by
  decide

/-- C5 (amended): every *checked* transport subprocess that exits with
a non-zero status makes the operation return an error and prevents
every subsequent step from executing, and no step is ever retried (each
step appears at most once in the launch trace); the two exceptions are
the initial `adb shell rm` of the Android install and the `ssh mkdir`
of the SSH install, whose statuses are ignored. -/
theorem claim5_transport_failure (status : AdbStep → Bool) (sshStatus : SshStep → Bool) :
    (status .push = false → androidInstallApp status = ([.rm, .push], false))
    ∧ (status .push = true → status .chmod = false →
        androidInstallApp status = ([.rm, .push, .chmod], false))
    ∧ (status .rm = false → androidCleanApp status = ([.rm], false))
    ∧ (status .shell = false → androidRunApp status = ([.shell], false))
    ∧ (sshStatus .rsync = false → sshInstallApp sshStatus = ([.mkdir, .rsync], false))
    ∧ (sshStatus .rm = false → sshCleanApp sshStatus = ([.rm], false))
    ∧ (sshStatus .run = false → sshRunApp sshStatus = ([.run], false))
    ∧ (androidInstallApp status).1.Nodup
    ∧ (sshInstallApp sshStatus).1.Nodup := by
  refine ⟨?_, ?_, ?_, ?_, ?_, ?_, ?_, ?_, ?_⟩
  · intro h; simp [androidInstallApp, h]
  · intro h1 h2; simp [androidInstallApp, h1, h2]
  · intro h; simp [androidCleanApp, h]
  · intro h; simp [androidRunApp, h]
  · intro h; simp [sshInstallApp, h]
  · intro h; simp [sshCleanApp, h]
  · intro h; simp [sshRunApp, h]
  · unfold androidInstallApp
    split <;> [skip; split] <;> decide
  · unfold sshInstallApp
    split <;> decide

/-- C5 witness: the amended theorem applied at concrete status oracles
(one where the push fails, one where the chmod fails, one where every
checked ssh step fails). -/
theorem claim5_transport_failure_witness :
    androidInstallApp (fun s => s ≠ AdbStep.push) = ([.rm, .push], false)
    ∧ androidInstallApp (fun s => s ≠ AdbStep.chmod) = ([.rm, .push, .chmod], false)
    ∧ sshInstallApp (fun _ => false) = ([.mkdir, .rsync], false)
    ∧ sshCleanApp (fun _ => false) = ([.rm], false)
    ∧ sshRunApp (fun _ => false) = ([.run], false) :=
  ⟨(claim5_transport_failure (fun s => s ≠ AdbStep.push) (fun _ => false)).1 (by decide),
   ((claim5_transport_failure (fun s => s ≠ AdbStep.chmod) (fun _ => false)).2.1
     (by decide) (by decide)),
   ((claim5_transport_failure (fun s => s ≠ AdbStep.push) (fun _ => false)).2.2.2.2.1
     (by decide)),
   ((claim5_transport_failure (fun s => s ≠ AdbStep.push) (fun _ => false)).2.2.2.2.2.1
     (by decide)),
   ((claim5_transport_failure (fun s => s ≠ AdbStep.push) (fun _ => false)).2.2.2.2.2.2.1
     (by decide))⟩

/-! ## Path helpers shared by the deployment operations

`fileName` embeds `Path::file_name().unwrap()` (last slash-separated
component) for the well-formed executable paths these operations
receive; `pathPush` embeds `PathBuf::push`/`join` of a relative
component (append, inserting a `/` separator unless the path is empty
or already ends with one).
-/

/-- Left fold computing the component after the last `/`. -/
def lastComponentAux (acc : List Char) : List Char → List Char
  | [] => acc
  | c :: rest => if c = '/' then lastComponentAux [] rest else lastComponentAux (acc ++ [c]) rest

/-- `Path::file_name` of the slash-separated paths used here. -/
def fileName (s : String) : String :=
  ⟨lastComponentAux [] s.data⟩

/-- `PathBuf::join` with a relative component. -/
def pathPush (p c : String) : String :=
  if p.data = [] then c
  else if p.data.getLast? = some '/' then p ++ c
  else p ++ "/" ++ c

theorem lastComponentAux_append (l1 l2 : List Char) (acc : List Char) :
    lastComponentAux acc (l1 ++ l2) = lastComponentAux (lastComponentAux acc l1) l2 := by
  induction l1 generalizing acc with
  | nil => rfl
  | cons c rest ih =>
    by_cases h : c = '/' <;> simp [lastComponentAux, h, ih]

theorem lastComponentAux_no_slash (l : List Char) (acc : List Char)
    (h : ('/' : Char) ∉ l) : lastComponentAux acc l = acc ++ l := by
  induction l generalizing acc with
  | nil => simp [lastComponentAux]
  | cons c rest ih =>
    simp only [List.mem_cons, not_or] at h
    simp [lastComponentAux, Ne.symm h.1, ih _ h.2]

theorem no_slash_lastComponentAux (l : List Char) (acc : List Char)
    (h : ('/' : Char) ∉ acc) : ('/' : Char) ∉ lastComponentAux acc l := by
  induction l generalizing acc with
  | nil => exact h
  | cons c rest ih =>
    by_cases hc : c = '/'
    · simpa [lastComponentAux, hc] using ih [] (by simp)
    · exact by simpa [lastComponentAux, hc] using ih (acc ++ [c]) (by simp [h, Ne.symm hc])

theorem fileName_no_slash (s : String) : ('/' : Char) ∉ (fileName s).data :=
  no_slash_lastComponentAux s.data [] (by simp)

/-- Appending a slash and a slash-free component makes that component
the file name. -/
theorem fileName_append (p n : String) (h : ('/' : Char) ∉ n.data) :
    fileName (p ++ "/" ++ n) = n := by
  apply String.ext
  show lastComponentAux [] ((p ++ "/" ++ n).data) = n.data
  rw [String.data_append, String.data_append]
  show lastComponentAux [] ((p.data ++ ['/']) ++ n.data) = n.data
  rw [lastComponentAux_append, lastComponentAux_append]
  have : lastComponentAux (lastComponentAux [] p.data) ['/'] = [] := by
    simp [lastComponentAux]
  rw [this, lastComponentAux_no_slash _ _ h]
  rfl

/-! ## Remote bundle path derivation

Source: `dinghy-lib/src/device/android.rs` lines 114 (`install_app`),
145 (`clean_app`), 165 (`run_app`) — each computes
`format!("/data/local/tmp/dinghy/{}", exe_name)`; and
`dinghy-lib/src/device/ssh.rs` lines 100-104 (`install_app`:
`format!("{}/dinghy/{}", prefix, app.file_name())`), 132-134
(`clean_app`: `PathBuf::from(prefix).join("dinghy").join(app_name)`),
158-160 (`run_app`: same join chain), with
`prefix = conf.path.clone().unwrap_or("/tmp")`.
-/

/-- Android `install_app` remote directory (android.rs line 114). -/
def androidInstallDir (exe : String) : String :=
  "/data/local/tmp/dinghy/" ++ fileName exe

/-- Android `clean_app` remote directory (android.rs line 145). -/
def androidCleanDir (exe : String) : String :=
  "/data/local/tmp/dinghy/" ++ fileName exe

/-- Android `run_app` remote directory (android.rs line 165). -/
def androidRunDir (exe : String) : String :=
  "/data/local/tmp/dinghy/" ++ fileName exe

/-- The SSH remote path root: `conf.path.clone().unwrap_or("/tmp")`. -/
def sshPathRoot (conf : SshDeviceConfiguration) : String :=
  conf.path.getD "/tmp"

/-- SSH `install_app` remote target path (ssh.rs lines 100-104). -/
def sshInstallPath (conf : SshDeviceConfiguration) (app : String) : String :=
  sshPathRoot conf ++ "/dinghy/" ++ fileName app

/-- SSH `clean_app` remote path (ssh.rs lines 132-134). -/
def sshCleanPath (conf : SshDeviceConfiguration) (app : String) : String :=
  pathPush (pathPush (sshPathRoot conf) "dinghy") (fileName app)

/-- SSH `run_app` remote bundle path (ssh.rs lines 158-160). -/
def sshRunPath (conf : SshDeviceConfiguration) (app : String) : String :=
  pathPush (pathPush (sshPathRoot conf) "dinghy") (fileName app)

theorem pathPush_plain (p c : String) (hne : p.data ≠ [])
    (hsl : p.data.getLast? ≠ some '/') : pathPush p c = p ++ "/" ++ c := by
  simp [pathPush, hne, hsl]

/-- C8 counterexample: install and clean/run do not always compute the
same remote path. With a configured path of `""` the `format!`-based
install path is the absolute `/dinghy/app` while `PathBuf::join` yields
the relative `dinghy/app`; with a slash-terminated configured path
`/tmp/` install doubles the slash (`/tmp//dinghy/app`) while join does
not (`/tmp/dinghy/app`). -/
theorem claim8_counterexample :
    sshInstallPath ⟨"h", "u", none, some "", none⟩ "/x/app" = "/dinghy/app"
    ∧ sshCleanPath ⟨"h", "u", none, some "", none⟩ "/x/app" = "dinghy/app"
    ∧ sshCleanPath ⟨"h", "u", none, some "", none⟩ "/x/app"
        ≠ sshInstallPath ⟨"h", "u", none, some "", none⟩ "/x/app"
    ∧ sshInstallPath ⟨"h", "u", none, some "/tmp/", none⟩ "/x/app" = "/tmp//dinghy/app"
    ∧ sshCleanPath ⟨"h", "u", none, some "/tmp/", none⟩ "/x/app" = "/tmp/dinghy/app"
    ∧ sshCleanPath ⟨"h", "u", none, some "/tmp/", none⟩ "/x/app"
        ≠ sshInstallPath ⟨"h", "u", none, some "/tmp/", none⟩ "/x/app" := by
  refine ⟨?_, ?_, ?_, ?_, ?_, ?_⟩ <;> decide

/-- C8 (amended): the remote bundle path is one pure function of the
host path per device: the three Android operations agree on
`/data/local/tmp/dinghy/<file name>` unconditionally; the rewrite is
idempotent unconditionally on both transports; and the three SSH
operations agree on `<root>/dinghy/<file name>` whenever the remote
root (the configured path, or the `/tmp` default) is nonempty and not
slash-terminated — for an empty or slash-terminated configured root
the `format!`-based install path and the `PathBuf::join`-based
clean/run path differ. -/
theorem claim8_remote_path (conf : SshDeviceConfiguration) (e app : String) :
    androidInstallDir e = androidCleanDir e
    ∧ androidInstallDir e = androidRunDir e
    ∧ androidInstallDir (androidInstallDir e) = androidInstallDir e
    ∧ sshInstallPath conf (sshInstallPath conf app) = sshInstallPath conf app
    ∧ ((sshPathRoot conf).data ≠ [] → (sshPathRoot conf).data.getLast? ≠ some '/' →
        sshCleanPath conf app = sshInstallPath conf app
        ∧ sshRunPath conf app = sshInstallPath conf app) := by
  have hd1 : ("/dinghy/" : String) = "/dinghy" ++ "/" := by decide
  have hd2 : ("/" : String) ++ "dinghy" = "/dinghy" := by decide
  have hsplit : ∀ (p x : String), p ++ "/dinghy/" ++ x = (p ++ "/dinghy") ++ "/" ++ x := by
    intro p x
    rw [hd1, ← String.append_assoc]
  have h3 : androidInstallDir (androidInstallDir e) = androidInstallDir e := by
    have hlit : ("/data/local/tmp/dinghy/" : String) = "/data/local/tmp/dinghy" ++ "/" := by
      decide
    have h1 : ∀ x : String, ("/data/local/tmp/dinghy/" : String) ++ x
        = ("/data/local/tmp/dinghy" : String) ++ "/" ++ x := by
      intro x
      rw [hlit]
    show "/data/local/tmp/dinghy/" ++ fileName ("/data/local/tmp/dinghy/" ++ fileName e)
      = "/data/local/tmp/dinghy/" ++ fileName e
    rw [h1 (fileName e), fileName_append _ _ (fileName_no_slash e)]
    exact h1 (fileName e)
  have h6 : sshInstallPath conf (sshInstallPath conf app) = sshInstallPath conf app := by
    show sshPathRoot conf ++ "/dinghy/" ++ fileName (sshPathRoot conf ++ "/dinghy/" ++ fileName app)
      = sshPathRoot conf ++ "/dinghy/" ++ fileName app
    rw [hsplit _ (fileName app), fileName_append _ _ (fileName_no_slash app),
      ← hsplit _ (fileName app)]
  refine ⟨rfl, rfl, h3, h6, ?_⟩
  intro hne hsl
  have h4 : sshCleanPath conf app = sshInstallPath conf app := by
    rw [sshCleanPath, pathPush_plain _ _ hne hsl]
    have hpd : ((sshPathRoot conf ++ "/" ++ "dinghy")).data.getLast? = some 'y' := by
      rw [String.data_append]
      rw [show ("dinghy" : String).data = ['d', 'i', 'n', 'g', 'h', 'y'] from rfl]
      rw [List.getLast?_append]
      rfl
    have hnonnil : ((sshPathRoot conf ++ "/" ++ "dinghy")).data ≠ [] := by
      rw [String.data_append]
      simp
    rw [pathPush_plain _ _ hnonnil (by rw [hpd]; decide)]
    rw [sshInstallPath, hsplit]
    rw [String.append_assoc (sshPathRoot conf) "/" "dinghy", hd2]
  exact ⟨h4, h4⟩

/-- C8 witness: the theorem applied at a configuration with no
configured path (root `/tmp`, which is nonempty with no trailing
slash) and concrete host paths. -/
theorem claim8_remote_path_witness :
    (let conf : SshDeviceConfiguration :=
      ⟨"host", "user", none, none, none⟩
    androidInstallDir "/home/u/app" = androidCleanDir "/home/u/app"
    ∧ androidInstallDir "/home/u/app" = androidRunDir "/home/u/app"
    ∧ androidInstallDir (androidInstallDir "/home/u/app") = androidInstallDir "/home/u/app"
    ∧ sshInstallPath conf (sshInstallPath conf "/home/u/app")
        = sshInstallPath conf "/home/u/app"
    ∧ (sshCleanPath conf "/home/u/app" = sshInstallPath conf "/home/u/app"
        ∧ sshRunPath conf "/home/u/app" = sshInstallPath conf "/home/u/app")) :=
  have h := claim8_remote_path ⟨"host", "user", none, none, none⟩ "/home/u/app" "/home/u/app"
  ⟨h.1, h.2.1, h.2.2.1, h.2.2.2.1, h.2.2.2.2 (by decide) (by decide)⟩

/-! ## SSH install command construction

Source: `dinghy-lib/src/device/ssh.rs`, `SshDevice::install_app`
(lines 76-129): one `ssh ... mkdir -p <prefix>/dinghy` subprocess
(with `-p <port>` after `user@host` when a port is configured), then
one `/usr/bin/rsync -a -v` subprocess; when a port is configured the
string `ssh -p <port>` is appended as one positional argument (the
source passes it without a preceding `-e`), followed by `<app>/` and
`user@host:<target>/`.

A command is embedded as its argv list (program name first).
-/

/-- The argv lists of the subprocesses launched by
`SshDevice::install_app`, in launch order. -/
def sshInstallCommands (conf : SshDeviceConfiguration) (app : String) : List (List String) :=
  let user_at_host := conf.username ++ "@" ++ conf.hostname
  let root := conf.path.getD "/tmp"
  let mkdirCmd :=
    match conf.port with
    | some port => ["ssh", user_at_host, "-p", toString port, "mkdir", "-p", root ++ "/dinghy"]
    | none => ["ssh", user_at_host, "mkdir", "-p", root ++ "/dinghy"]
  let target_path := root ++ "/dinghy/" ++ fileName app
  let rsyncCmd :=
    ["/usr/bin/rsync", "-a", "-v"]
    ++ (match conf.port with
        | some port => ["ssh -p " ++ toString port]
        | none => [])
    ++ [app ++ "/", user_at_host ++ ":" ++ target_path ++ "/"]
  [mkdirCmd, rsyncCmd]

/-- C6 counterexample: for a configured device with port 2222,
`install_app` launches exactly one rsync subprocess — not two — and
no argument of any launched command is `-e`; the ssh transport string
`ssh -p 2222` is passed as a bare positional argument instead. -/
theorem claim6_counterexample :
    ((sshInstallCommands ⟨"h", "u", some 2222, some "/opt", none⟩ "/x/app").countP
        fun c => c.head? = some "/usr/bin/rsync") = 1
    ∧ (1 : Nat) ≠ 2
    ∧ "-e" ∉ (sshInstallCommands ⟨"h", "u", some 2222, some "/opt", none⟩ "/x/app").flatten
    ∧ "ssh -p 2222" ∈ (sshInstallCommands ⟨"h", "u", some 2222, some "/opt", none⟩ "/x/app").flatten := by
  refine ⟨?_, by decide, ?_, ?_⟩ <;> decide

/-- Two strings differ when some character occurs in one but not the
other. -/
theorem string_ne_of_mem {c : Char} {s t : String}
    (h1 : c ∈ s.data) (h2 : c ∉ t.data) : s ≠ t :=
  fun he => h2 (he ▸ h1)

/-- A string appended with a trailing slash never equals a string
containing no slash. -/
theorem append_slash_ne (x t : String) (h : ('/' : Char) ∉ t.data) : (x ++ "/") ≠ t :=
  string_ne_of_mem (c := '/')
    (by rw [String.data_append]
        simp [show ("/" : String).data = ['/'] from rfl]) h

/-- A `user@host` string never equals a string containing no `@`. -/
theorem uah_ne (pre suf t : String) (h : ('@' : Char) ∉ t.data) :
    (pre ++ "@" ++ suf) ≠ t :=
  string_ne_of_mem (c := '@')
    (by rw [String.data_append, String.data_append]
        simp [show ("@" : String).data = ['@'] from rfl]) h

/-- A `ssh -p <x>` string never equals a string containing no space. -/
theorem sshp_ne (x t : String) (h : (' ' : Char) ∉ t.data) :
    ("ssh -p " ++ x) ≠ t :=
  string_ne_of_mem (c := ' ')
    (by rw [String.data_append]
        exact List.mem_append_left _ (by decide)) h

/-- C6 (amended): for every SSH device and bundle, `install_app`
launches exactly one `mkdir` pre-step and exactly one rsync invocation
(covering the whole bundle directory), with `-e` never among the rsync
arguments; when a port is configured the mkdir ssh receives
`-p <port>` while the rsync receives the single positional argument
`ssh -p <port>`. -/
theorem claim6_ssh_install (conf : SshDeviceConfiguration) (app : String) :
    (sshInstallCommands conf app).length = 2
    ∧ ((sshInstallCommands conf app).countP
        fun c => c.head? = some "/usr/bin/rsync") = 1
    ∧ ((sshInstallCommands conf app).countP fun c => "mkdir" ∈ c) = 1
    ∧ (∃ mk rs, sshInstallCommands conf app = [mk, rs]
        ∧ mk.head? = some "ssh" ∧ "mkdir" ∈ mk
        ∧ rs.head? = some "/usr/bin/rsync" ∧ (app ++ "/") ∈ rs
        ∧ "-e" ∉ rs)
    ∧ (∀ port, conf.port = some port →
        ∃ mk rs, sshInstallCommands conf app = [mk, rs]
        ∧ mk = ["ssh", conf.username ++ "@" ++ conf.hostname, "-p", toString port,
            "mkdir", "-p", conf.path.getD "/tmp" ++ "/dinghy"]
        ∧ rs = ["/usr/bin/rsync", "-a", "-v", "ssh -p " ++ toString port, app ++ "/",
            conf.username ++ "@" ++ conf.hostname ++ ":"
              ++ (conf.path.getD "/tmp" ++ "/dinghy/" ++ fileName app) ++ "/"]
        ∧ "-e" ∉ rs) := by
  have hmkdir_ne : ∀ x : String, ¬("mkdir" = "ssh -p " ++ x) :=
    fun x => Ne.symm (sshp_ne x "mkdir" (by decide))
  have hmkdir_app : ¬("mkdir" = app ++ "/") :=
    Ne.symm (append_slash_ne app "mkdir" (by decide))
  have hmkdir_tgt : ∀ y : String, ¬("mkdir" = y ++ "/") :=
    fun y => Ne.symm (append_slash_ne y "mkdir" (by decide))
  have he_ne : ∀ x : String, ¬("-e" = "ssh -p " ++ x) :=
    fun x => Ne.symm (sshp_ne x "-e" (by decide))
  have he_app : ∀ y : String, ¬("-e" = y ++ "/") :=
    fun y => Ne.symm (append_slash_ne y "-e" (by decide))
  cases hp : conf.port with
  | none =>
    have hcmds : sshInstallCommands conf app
        = [["ssh", conf.username ++ "@" ++ conf.hostname,
            "mkdir", "-p", conf.path.getD "/tmp" ++ "/dinghy"],
           ["/usr/bin/rsync", "-a", "-v", app ++ "/",
            conf.username ++ "@" ++ conf.hostname ++ ":"
              ++ (conf.path.getD "/tmp" ++ "/dinghy/" ++ fileName app) ++ "/"]] := by
      simp [sshInstallCommands, hp]
    refine ⟨by rw [hcmds]; rfl, ?_, ?_, ?_, ?_⟩
    · rw [hcmds]
      simp [List.countP_cons]
    · rw [hcmds]
      simp [List.countP_cons, List.countP_nil,
        Ne.symm (uah_ne conf.username conf.hostname "mkdir" (by decide)),
        hmkdir_app, hmkdir_tgt]
    · refine ⟨_, _, hcmds, rfl, by simp, rfl, by simp, ?_⟩
      simp [List.mem_cons, he_app]
    · intro port hport
      exact Option.noConfusion hport
  | some port =>
    have hcmds : sshInstallCommands conf app
        = [["ssh", conf.username ++ "@" ++ conf.hostname, "-p", toString port,
            "mkdir", "-p", conf.path.getD "/tmp" ++ "/dinghy"],
           ["/usr/bin/rsync", "-a", "-v", "ssh -p " ++ toString port, app ++ "/",
            conf.username ++ "@" ++ conf.hostname ++ ":"
              ++ (conf.path.getD "/tmp" ++ "/dinghy/" ++ fileName app) ++ "/"]] := by
      simp [sshInstallCommands, hp]
    have he_rs : ("-e" : String) ∉
        ["/usr/bin/rsync", "-a", "-v", "ssh -p " ++ toString port, app ++ "/",
         conf.username ++ "@" ++ conf.hostname ++ ":"
           ++ (conf.path.getD "/tmp" ++ "/dinghy/" ++ fileName app) ++ "/"] := by
      simp [List.mem_cons, he_ne, he_app]
    refine ⟨by rw [hcmds]; rfl, ?_, ?_, ?_, ?_⟩
    · rw [hcmds]
      simp [List.countP_cons]
    · rw [hcmds]
      simp [List.countP_cons, List.countP_nil,
        Ne.symm (uah_ne conf.username conf.hostname "mkdir" (by decide)),
        hmkdir_ne, hmkdir_app, hmkdir_tgt]
    · refine ⟨_, _, hcmds, rfl, by simp, rfl, by simp, he_rs⟩
    · intro port2 hport
      injection hport with hpp
      subst hpp
      exact ⟨_, _, hcmds, rfl, rfl, he_rs⟩

/-- C6 witness: the amended theorem applied at port 2222, remote root
`/opt`, host path `/x/app`, with the port hypothesis discharged. -/
theorem claim6_ssh_install_witness :
    (sshInstallCommands ⟨"h", "u", some 2222, some "/opt", none⟩ "/x/app").length = 2
    ∧ ((sshInstallCommands ⟨"h", "u", some 2222, some "/opt", none⟩ "/x/app").countP
        fun c => c.head? = some "/usr/bin/rsync") = 1
    ∧ ((sshInstallCommands ⟨"h", "u", some 2222, some "/opt", none⟩ "/x/app").countP
        fun c => "mkdir" ∈ c) = 1
    ∧ (∃ mk rs, sshInstallCommands ⟨"h", "u", some 2222, some "/opt", none⟩ "/x/app" = [mk, rs]
        ∧ mk = ["ssh", "u" ++ "@" ++ "h", "-p", toString (2222 : Nat),
            "mkdir", "-p", (some "/opt" : Option String).getD "/tmp" ++ "/dinghy"]
        ∧ rs = ["/usr/bin/rsync", "-a", "-v", "ssh -p " ++ toString (2222 : Nat), "/x/app" ++ "/",
            "u" ++ "@" ++ "h" ++ ":"
              ++ ((some "/opt" : Option String).getD "/tmp" ++ "/dinghy/" ++ fileName "/x/app") ++ "/"]
        ∧ "-e" ∉ rs) :=
  have h := claim6_ssh_install ⟨"h", "u", some 2222, some "/opt", none⟩ "/x/app"
  ⟨h.1, h.2.1, h.2.2.1, h.2.2.2.2 2222 rfl⟩

/-! ## Remote run command construction

Source: `dinghy-lib/src/device/android.rs`, `AndroidDevice::run_app`
(lines 160-184): argv
`[adb, "-s", id, "shell", format!("cd {:?}; DINGHY=1 {}", target_dir,
envs.join(" ")), target_exe] ++ args`; and
`dinghy-lib/src/device/ssh.rs`, `SshDevice::run_app` (lines 156-186):
`ssh [-p port] [-t -o LogLevel=QUIET] user@host
format!("cd {:?} ; DINGHY=1 {} LD_LIBRARY_PATH='{}' {}", path,
envs.join(" "), exe.parent(), exe)` followed by the caller args, the
TTY options present exactly when `isatty::stdout_isatty()`.
-/

/-- One character under Rust `Debug` string formatting (quotes and
backslashes escaped; the other escapes Rust applies concern control
and non-printable characters, which the paths here do not contain). -/
def rustDebugEscape (c : Char) : List Char :=
  if c = '"' then ['\\', '"']
  else if c = '\\' then ['\\', '\\']
  else [c]

/-- Rust `format!("{:?}", s)` on a string or path: quoted and escaped. -/
def rustDebug (s : String) : String :=
  ⟨'"' :: ((s.data.map rustDebugEscape).flatten ++ ['"'])⟩

/-- Rust `Path::parent().unwrap()` of the slash-separated paths used
here: everything before the last `/`. -/
def parentDir (s : String) : String :=
  ⟨((s.data.reverse.dropWhile fun c => c ≠ '/').drop 1).reverse⟩

/-- Argv of the `adb` subprocess launched by `AndroidDevice::run_app`. -/
def androidRunArgv (adb i exe : String) (args envs : List String) : List String :=
  let exe_name := fileName exe
  let target_dir := "/data/local/tmp/dinghy/" ++ exe_name
  let target_exe := target_dir ++ "/" ++ exe_name
  [adb, "-s", i, "shell",
   "cd " ++ rustDebug target_dir ++ "; DINGHY=1 " ++ String.intercalate " " envs,
   target_exe] ++ args

/-- Argv of the `ssh` subprocess launched by `SshDevice::run_app`
(`tty` is the value of `isatty::stdout_isatty()`). -/
def sshRunArgv (conf : SshDeviceConfiguration) (app : String)
    (args envs : List String) (tty : Bool) : List String :=
  let user_at_host := conf.username ++ "@" ++ conf.hostname
  let root := conf.path.getD "/tmp"
  let path := pathPush (pathPush root "dinghy") (fileName app)
  let exe := pathPush path (fileName app)
  ["ssh"]
  ++ (match conf.port with
      | some port => ["-p", toString port]
      | none => [])
  ++ (if tty then ["-t", "-o", "LogLevel=QUIET"] else [])
  ++ [user_at_host,
      "cd " ++ rustDebug path ++ " ; DINGHY=1 " ++ String.intercalate " " envs
        ++ " LD_LIBRARY_PATH='" ++ parentDir exe ++ "' " ++ exe]
  ++ args

/-- C7: the remote command line first `cd`s into the remote bundle
directory, then sets the marker `DINGHY=1` followed by the
caller-supplied environment entries (and, for SSH, the
`LD_LIBRARY_PATH` library-search variable), then the executable path,
then the caller-supplied arguments, in exactly that order; for SSH the
`-t` TTY options are inserted exactly when the local stdout is a
terminal. -/
theorem claim7_run_command (adb i exe app : String) (conf : SshDeviceConfiguration)
    (args envs : List String) (tty : Bool) :
    androidRunArgv adb i exe args envs
      = [adb, "-s", i, "shell",
         "cd " ++ rustDebug (androidRunDir exe) ++ "; " ++ "DINGHY=1 "
           ++ String.intercalate " " envs,
         androidRunDir exe ++ "/" ++ fileName exe] ++ args
    ∧ sshRunArgv conf app args envs tty
      = ["ssh"]
        ++ (match conf.port with
            | some port => ["-p", toString port]
            | none => [])
        ++ (if tty then ["-t", "-o", "LogLevel=QUIET"] else [])
        ++ [conf.username ++ "@" ++ conf.hostname,
            "cd " ++ rustDebug (sshRunPath conf app) ++ " ; " ++ "DINGHY=1 "
              ++ String.intercalate " " envs
              ++ " LD_LIBRARY_PATH='"
              ++ parentDir (pathPush (sshRunPath conf app) (fileName app)) ++ "' "
              ++ pathPush (sshRunPath conf app) (fileName app)]
        ++ args := by
  constructor
  · rw [show (("cd " ++ rustDebug (androidRunDir exe)) ++ "; ") ++ "DINGHY=1 "
        = ("cd " ++ rustDebug (androidRunDir exe)) ++ "; DINGHY=1 " from by
      rw [String.append_assoc,
        show ("; " : String) ++ "DINGHY=1 " = "; DINGHY=1 " from by decide]]
    rfl
  · rw [show (("cd " ++ rustDebug (sshRunPath conf app)) ++ " ; ") ++ "DINGHY=1 "
        = ("cd " ++ rustDebug (sshRunPath conf app)) ++ " ; DINGHY=1 " from by
      rw [String.append_assoc,
        show (" ; " : String) ++ "DINGHY=1 " = " ; DINGHY=1 " from by decide]]
    rfl

/-! ## Android device enumeration

Source: `dinghy-lib/src/device/android.rs`, `AndroidManager::devices`
(lines 229-241): the `adb devices` output is split on newlines, the
first line skipped, each line matching `^(\\S+)\\tdevice\\r?$` yields a
device id which is probed with `AndroidDevice::from_id(...)?` — the `?`
propagates any probe failure out of the whole loop.
-/

/-- The regex `^(\\S+)\\tdevice\\r?$` applied to one line: a nonempty
maximal run of non-whitespace, then exactly a tab, `device`, and an
optional carriage return (whitespace approximated by
`Char.isWhitespace`, which covers the characters the regex classes
distinguish here). -/
def parseDeviceLine (line : String) : Option String :=
  let i := line.data.takeWhile fun c => ¬c.isWhitespace
  let rest := line.data.dropWhile fun c => ¬c.isWhitespace
  if i ≠ [] ∧ (rest = '\t' :: "device".data ∨ rest = '\t' :: "device\r".data)
  then some ⟨i⟩ else none

/-- The device-collection loop of `AndroidManager::devices`, with the
`getprop` probe of `AndroidDevice::from_id` abstracted as an oracle:
each matching line's id is probed, `?` aborting on the first error. -/
def collectDevices (probe : String → Except String AndroidDevice) :
    List String → Except String (List AndroidDevice)
  | [] => .ok []
  | line :: rest =>
    match parseDeviceLine line with
    | none => collectDevices probe rest
    | some i =>
      match probe i with
      | .error e => .error e
      | .ok d =>
        match collectDevices probe rest with
        | .error e => .error e
        | .ok ds => .ok (d :: ds)

/-- `AndroidManager::devices`: split the `adb devices` output on
newlines, skip the first line, and run the collection loop. -/
def androidManagerDevices (output : String)
    (probe : String → Except String AndroidDevice) :
    Except String (List AndroidDevice) :=
  collectDevices probe
    (((splitChar '\n' output.data).map fun cs => (⟨cs⟩ : String)).drop 1)

theorem collectDevices_error (probe : String → Except String AndroidDevice)
    (lines : List String) (line i e) (hmem : line ∈ lines)
    (hparse : parseDeviceLine line = some i) (hprobe : probe i = .error e) :
    ∃ e', collectDevices probe lines = .error e' := by
  induction lines with
  | nil => cases hmem
  | cons l rest ih =>
    rcases List.mem_cons.mp hmem with hl | hl
    · subst hl
      refine ⟨e, ?_⟩
      simp [collectDevices, hparse, hprobe]
    · obtain ⟨e', he'⟩ := ih hl
      cases hp : parseDeviceLine l with
      | none => exact ⟨e', by simp [collectDevices, hp, he']⟩
      | some j =>
        cases hq : probe j with
        | error e2 => exact ⟨e2, by simp [collectDevices, hp, hq]⟩
        | ok d => exact ⟨e', by simp [collectDevices, hp, hq, he']⟩

/-- C9: if the ABI-list probe of any single device id appearing in the
`adb devices` output fails, the whole `devices()` enumeration returns
an error (so no device list — partial or otherwise — is produced). -/
theorem claim9_android_enumeration (output : String)
    (probe : String → Except String AndroidDevice) (line i e : String)
    (hmem : line ∈ ((splitChar '\n' output.data).map fun cs => (⟨cs⟩ : String)).drop 1)
    (hparse : parseDeviceLine line = some i) (hprobe : probe i = .error e) :
    ∃ e', androidManagerDevices output probe = .error e' :=
  collectDevices_error probe _ line i e hmem hparse hprobe

/-- C9 witness: the theorem applied at a concrete two-line `adb
devices` output whose single listed device's probe fails. -/
theorem claim9_android_enumeration_witness :
    ∃ e', androidManagerDevices "List of devices attached\nemulator-5554\tdevice"
      (fun _ => .error "getprop failed") = .error e' :=
  claim9_android_enumeration "List of devices attached\nemulator-5554\tdevice"
    (fun _ => .error "getprop failed") "emulator-5554\tdevice" "emulator-5554"
    "getprop failed" (by decide) (by decide) rfl

/-! ## `envify`

Source: `src/toolchain.rs`, `envify` (lines 173-179): map every
character through `to_ascii_uppercase`, then map `-` to `_`. The
comment in the source (line 174) states it is the same as
`name.replace("-", "_").to_uppercase()`.
-/

/-- Rust `char::to_ascii_uppercase`: subtract 32 from `a`-`z`, leave
every other character unchanged. -/
def toAsciiUppercase (c : Char) : Char :=
  if 97 ≤ c.toNat ∧ c.toNat ≤ 122 then Char.ofNat (c.toNat - 32) else c

/-- The character-by-character `envify` implementation: uppercase each
character, then replace `-` by `_`. -/
def envify (name : List Char) : List Char :=
  (name.map toAsciiUppercase).map fun c => if c = '-' then '_' else c

/-- The reference definition `name.replace("-", "_").to_uppercase()`:
replace each `-` by `_`, then uppercase. On ASCII input Rust's Unicode
`str::to_uppercase` coincides with per-character ASCII uppercasing,
which is how it is modelled here. -/
def envifyReference (name : List Char) : List Char :=
  (name.map fun c => if c = '-' then '_' else c).map toAsciiUppercase

theorem toNat_ofNat_valid {n : Nat} (h : n.isValidChar) :
    (Char.ofNat n).toNat = n := by
  rw [Char.ofNat, dif_pos h]
  rfl

theorem toAsciiUppercase_eq_dash_iff (c : Char) :
    toAsciiUppercase c = '-' ↔ c = '-' := by
  unfold toAsciiUppercase
  split
  case isTrue h =>
    constructor
    · intro hc
      have hv : (c.toNat - 32).isValidChar := Or.inl (by omega)
      have h45 := congrArg Char.toNat hc
      rw [toNat_ofNat_valid hv] at h45
      have : c.toNat - 32 = 45 := h45
      omega
    · intro hc
      subst hc
      exact absurd h (by decide)
  case isFalse h => exact Iff.rfl

/-- C10: on every ASCII string, the character-by-character `envify`
implementation agrees with the reference definition
`name.replace("-", "_").to_uppercase()`. -/
theorem claim10_envify (name : List Char) (_hascii : ∀ c ∈ name, c.toNat < 128) :
    envify name = envifyReference name := by
  -- The ASCII bound scopes the claim: it justifies modelling Rust
  -- `str::to_uppercase` per character in `envifyReference`.
  unfold envify envifyReference
  rw [List.map_map, List.map_map]
  apply List.map_congr_left
  intro c _
  show (if toAsciiUppercase c = '-' then '_' else toAsciiUppercase c)
    = toAsciiUppercase (if c = '-' then '_' else c)
  by_cases hc : c = '-'
  · subst hc
    decide
  · have hup : ¬(toAsciiUppercase c = '-') :=
      fun hcon => hc ((toAsciiUppercase_eq_dash_iff c).mp hcon)
    simp [hc, hup]

/-- C10 witness: the theorem applied at the ASCII string
`aarch64-linux-android`. -/
theorem claim10_envify_witness :
    envify "aarch64-linux-android".data = envifyReference "aarch64-linux-android".data :=
  claim10_envify "aarch64-linux-android".data (by decide)

end Dinghy
